import Mathlib

/-!
# Verification of the roulette mini-app client and award service

Shallow embedding of `src/mini_app/static/script.js` (the wheel
renderer/animator and the spin request handler) together with a
spec-modelled award service (the server file `mini_app/server.py` is not
part of `src/`).

Angle convention: every angle occurring in the JavaScript source is a
rational multiple of π (`2π/N`, `π/2`, `5·2π`, …) and the arithmetic
applied to them (`+`, `-`, `*`, `%`, `min`) preserves that, so angles are
embedded exactly as their rational coefficient of π: the Lean value
`a : ℚ` denotes the angle `a·π` radians.  A full turn `2π` is `2`, the
pointer position `-π/2` is `-1/2`.  JavaScript numbers are modelled as
exact rationals.
-/

namespace Roulette

/-- Source: `const PRIZES = [5000, 10000, 15000, 20000, 25000, 30000];`
(script.js line 17). -/
def PRIZES : List ℤ := [5000, 10000, 15000, 20000, 25000, 30000]

/-- Source: `const COLORS = [...]` (script.js line 18): the segment colour palette. -/
def COLORS : List String :=
  ["#FF6B6B", "#4ECDC4", "#45B7D1", "#FFA07A", "#98D8C8", "#F39C12"]

/-- Truncation toward zero on ℚ, as JavaScript's implicit truncation in the
`%` operator: `trunc q = ⌊q⌋` for `q ≥ 0` and `⌈q⌉` for `q < 0`. -/
def ratTrunc (q : ℚ) : ℤ := if 0 ≤ q then ⌊q⌋ else ⌈q⌉

/-- JavaScript's `%` operator on numbers (truncated remainder, sign of the
dividend): `x % y = x - y * trunc (x / y)`. -/
def jsMod (x y : ℚ) : ℚ := x - y * (ratTrunc (x / y) : ℚ)

/-- JavaScript's `Array.prototype.indexOf`: the index of the first
occurrence, `-1` when the element is absent. -/
def jsIndexOf (l : List ℤ) (x : ℤ) : ℤ :=
  if x ∈ l then (l.indexOf x : ℤ) else -1

/-- Source: `const arc = (2 * Math.PI) / PRIZES.length` (script.js line 83), as a
multiple of π. -/
def arc : ℚ := 2 / (PRIZES.length : ℚ)

/-- Source: `const pointerAngle = -Math.PI / 2` (script.js line 88): the pointer at
12 o'clock, as a multiple of π. -/
def pointerAngle : ℚ := -(1 / 2)

/-- Source: `const segmentStartAngle = targetIndex * arc` (script.js line 89). -/
def segmentStartAngle (targetIndex : ℤ) : ℚ := (targetIndex : ℚ) * arc

/-- Source: `const segmentCenterAngle = segmentStartAngle + (arc / 2)`
(script.js line 90). -/
def segmentCenterAngle (targetIndex : ℤ) : ℚ :=
  segmentStartAngle targetIndex + arc / 2

/-- Source: `const targetAngle = pointerAngle - segmentCenterAngle`
(script.js line 91). -/
def targetAngle (targetIndex : ℤ) : ℚ :=
  pointerAngle - segmentCenterAngle targetIndex

/-- Source: `(targetAngle % (2 * Math.PI) + 2 * Math.PI) % (2 * Math.PI)`
(script.js line 94), with `2π` written as `2`. -/
def normalizedTargetAngle (targetIndex : ℤ) : ℚ :=
  jsMod (jsMod (targetAngle targetIndex) 2 + 2) 2

/-- Source: `const fullRotations = 5` (script.js line 95). -/
def fullRotations : ℕ := 5

/-- Source: `const totalRotation = (fullRotations * 2 * Math.PI) + normalizedTargetAngle`
(script.js line 96), where the target index is
`PRIZES.indexOf(targetPrize)` (line 82). -/
def totalRotation (targetPrize : ℤ) : ℚ :=
  (fullRotations : ℚ) * 2 + normalizedTargetAngle (jsIndexOf PRIZES targetPrize)

/-- Source: `const duration = 4000` (script.js line 99), milliseconds. -/
def duration : ℚ := 4000

/-- Source: `const progress = Math.min(elapsed / duration, 1)` (script.js line 105). -/
def progress (elapsed : ℚ) : ℚ := min (elapsed / duration) 1

/-- Source: `const easeProgress = 1 - Math.pow(1 - progress, 3)` (script.js
line 108): ease-out cubic. -/
def easeProgress (p : ℚ) : ℚ := 1 - (1 - p) ^ 3

/-- Source: `currentAngle = easeProgress * totalRotation` (script.js line 110): the
wheel rotation drawn by the frame whose wall-clock elapsed time is
`elapsed`. -/
def currentAngleAt (targetPrize : ℤ) (elapsed : ℚ) : ℚ :=
  easeProgress (progress elapsed) * totalRotation targetPrize

/-- The rotation at the end of an `animateSpin` run.  The animation loop
overwrites the module-level `currentAngle` each frame (line 110) without
reading its previous value, so the final rotation ignores the wheel's
rotation before the spin; `initialRotation` records that pre-spin value. -/
def spinFinalAngle (initialRotation : ℚ) (targetPrize : ℤ) : ℚ :=
  currentAngleAt targetPrize duration

/-- Two angles (as multiples of π) coincide modulo a full turn `2π`:
they differ by `2k·π` for some integer `k`. -/
def angEquiv (a b : ℚ) : Prop := ∃ k : ℤ, a - b = 2 * (k : ℚ)

/-- The angle at which `drawWheel` begins segment `i`:
`const angle = rotation + i * arc` (script.js line 42); the segment is
filled from `angle` to `angle + arc` (line 48). -/
def drawAngle (rotation : ℚ) (i : ℕ) : ℚ := rotation + (i : ℚ) * arc

/-- The animation loop of script.js lines 103-127, driven by the strictly
later wall-clock timestamps at which the host's frame scheduler runs the
callback: each frame computes `progress = min(elapsed/duration, 1)`; while
`progress < 1` it schedules one further frame (entry `false`), and on the
first frame with `progress = 1` it invokes the completion callback
`showResult(targetPrize)` synchronously and schedules nothing (entry
`true`, end of the trace). -/
def animateTrace : List ℚ → List Bool
  | [] => []
  | t :: ts => if progress t < 1 then false :: animateTrace ts else [true]

/-- The client-side mutable state: the module-level variables of script.js
lines 23-26 together with the DOM bits the handlers mutate (button
disabled/hidden flags, panel visibility, displayed prize texts). -/
structure ClientState where
  currentAngle : ℚ
  isSpinning : Bool
  spinBtnDisabled : Bool
  spinBtnHidden : Bool
  loadingHidden : Bool
  resultHidden : Bool
  resultText : Option ℤ
  alreadySpunHidden : Bool
  alreadySpunText : Option ℤ
  canvasDimmed : Bool
deriving DecidableEq

/-- The outward-visible actions the client performs. -/
inductive Effect where
  /-- Source: `tg.HapticFeedback.impactOccurred('medium')` (line 205). -/
  | hapticImpact
  /-- Source: `tg.HapticFeedback.notificationOccurred('success')` (line 122). -/
  | hapticSuccess
  /-- Source: `fetch('/api/spin', {method: 'POST', body: {telegram_id}})` (line 210). -/
  | postSpin (telegramId : ℤ)
  /-- Effect: `animateSpin(prize)` is started (line 226). -/
  | startAnimation (prize : ℤ)
  /-- a browser alert with the given message. -/
  | alertMsg (msg : String)
  /-- Source: `tg.sendData(JSON.stringify({prize}))` (lines 139-140). -/
  | sendData (prize : ℤ)
  /-- Source: `tg.close()` (line 143). -/
  | closeApp
deriving DecidableEq

/-- The outcome of the awaited `fetch('/api/spin')` + `response.json()`:
an ok response carrying `{prize}`, a non-ok response carrying
`{error, prize}`, or a thrown fetch/parse error. -/
inductive SpinResponse where
  | ok (prize : ℤ)
  | errResp (error : String) (prize : ℤ)
  | thrown
deriving DecidableEq

/-- The `spin` handler (script.js lines 189-247) run to the point where the
awaited request has settled with outcome `resp`: the guard on `isSpinning`
(line 190), the missing-user-id bail-out (lines 194-197), the pre-request
state flips (lines 199-201), and the three response paths (ok: start the
animation with the server's prize; non-ok: reset, then either the
recognized "Already spun" shape or a generic alert; thrown: reset and
alert).  Returns the new state and the effects in program order. -/
def spin (s : ClientState) (userId : Option ℤ) (resp : SpinResponse) :
    ClientState × List Effect :=
  if s.isSpinning then (s, [])
  else
    match userId with
    | none => (s, [.alertMsg "Ошибка: не удалось получить ID пользователя"])
    | some uid =>
      let s1 : ClientState :=
        { s with isSpinning := true, spinBtnDisabled := true, loadingHidden := false }
      match resp with
      | .ok prize =>
        ({ s1 with loadingHidden := true },
         [.hapticImpact, .postSpin uid, .startAnimation prize])
      | .errResp err prize =>
        let s2 : ClientState :=
          { s1 with loadingHidden := true, isSpinning := false,
                    spinBtnDisabled := false }
        if err = "Already spun" then
          ({ s2 with alreadySpunText := some prize, alreadySpunHidden := false,
                     spinBtnHidden := true, canvasDimmed := true },
           [.hapticImpact, .postSpin uid])
        else
          (s2, [.hapticImpact, .postSpin uid, .alertMsg ("Ошибка: " ++ err)])
      | .thrown =>
        ({ s1 with loadingHidden := true, isSpinning := false,
                   spinBtnDisabled := false },
         [.hapticImpact, .postSpin uid, .alertMsg "Ошибка подключения к серверу"])

/-- The completion callback `showResult(prize)` (script.js lines 131-150): display the formatted
prize, then (after the `setTimeout` delay, abstracted away) send
`{prize}` to the hosting application and close the mini app; the
non-throwing path of `tg.sendData` is modelled. -/
def showResult (s : ClientState) (prize : ℤ) : ClientState × List Effect :=
  ({ s with resultText := some prize, resultHidden := false },
   [.sendData prize, .closeApp])

/-- The final animation frame (script.js lines 110-123, `progress = 1`
branch): the wheel is drawn at the full total rotation, `isSpinning` is
cleared, `showResult(targetPrize)` runs synchronously, then the success
haptic fires. -/
def animateFinalFrame (s : ClientState) (targetPrize : ℤ) :
    ClientState × List Effect :=
  let s1 : ClientState :=
    { s with currentAngle := currentAngleAt targetPrize duration,
             isSpinning := false }
  let r := showResult s1 targetPrize
  (r.1, r.2 ++ [.hapticSuccess])

/-- The prize carried by the first `startAnimation` effect, if any. -/
def startedPrize : List Effect → Option ℤ
  | [] => none
  | .startAnimation p :: _ => some p
  | _ :: rest => startedPrize rest

/-- A complete successful client run: `spin()` with an ok server response,
then the final frame of the animation that the `startAnimation` effect
launched, with the target prize the effect carries. -/
def clientRunOk (s : ClientState) (uid serverPrize : ℤ) :
    ClientState × List Effect :=
  let r1 := spin s (some uid) (.ok serverPrize)
  match startedPrize r1.2 with
  | some p =>
    let r2 := animateFinalFrame r1.1 p
    (r2.1, r1.2 ++ r2.2)
  | none => r1

/-- The client state at page load: `currentAngle = 0`, `isSpinning = false`
(script.js lines 24-25); the overlays start hidden and the spin button
enabled and visible. -/
def initState : ClientState :=
  { currentAngle := 0, isSpinning := false, spinBtnDisabled := false,
    spinBtnHidden := false, loadingHidden := true, resultHidden := true,
    resultText := none, alreadySpunHidden := true, alreadySpunText := none,
    canvasDimmed := false }

/-- A `SpinRecord`: one row of the `roulette_spins` table,
`(telegram_id PRIMARY KEY, prize_amount, spun_at)` (spec §3, §6). -/
structure SpinRecord where
  telegram_id : ℤ
  prize_amount : ℤ
  spun_at : ℕ
deriving DecidableEq

/-- The lookup of the existing spin record for a user in the store. -/
def findRecord (store : List SpinRecord) (uid : ℤ) : Option SpinRecord :=
  store.find? (fun r => r.telegram_id == uid)

/-- Modelled from the spec: the server-side `AwardSpin` operation
(`mini_app/server.py` is not under `src/`).  Per spec §4.1/§5 the
check-for-existing + insert-if-absent is one atomic step against the
store keyed by `user_id`: if a record exists, return its stored prize and
leave the store unchanged; otherwise persist `SpinRecord{user_id, roll,
now}` (where `roll` is the uniform random choice made at the moment of
award) and return `roll`. -/
def awardSpin (store : List SpinRecord) (uid roll : ℤ) (now : ℕ) :
    List SpinRecord × ℤ :=
  match findRecord store uid with
  | some r => (store, r.prize_amount)
  | none => (⟨uid, roll, now⟩ :: store, roll)

/-- Modelled from the spec: `N` concurrent `AwardSpin` calls for one user.
Because each call is a single atomic step (spec §4.1), any concurrent
execution is an interleaving, i.e. the calls run in some sequential order;
`calls` lists each call's `(roll, now)` pair in that order.  Returns the
final store and the prize each call returned, in order. -/
def runAwards (store : List SpinRecord) (uid : ℤ) :
    List (ℤ × ℕ) → List SpinRecord × List ℤ
  | [] => (store, [])
  | (roll, now) :: cs =>
    let r1 := awardSpin store uid roll now
    let r2 := runAwards r1.1 uid cs
    (r2.1, r1.2 :: r2.2)

/-- All records the store holds for a user. -/
def recordsFor (store : List SpinRecord) (uid : ℤ) : List SpinRecord :=
  store.filter (fun r => r.telegram_id == uid)

/-- Remainder congruence: `x % 2` differs from `x` by an even integer. -/
lemma jsMod_two_sub (x : ℚ) : x - jsMod x 2 = 2 * (ratTrunc (x / 2) : ℚ) := by
  simp [jsMod]

/-- For a nonnegative dividend, `x % 2` lies in `[0, 2)`. -/
lemma jsMod_two_nonneg (x : ℚ) (hx : 0 ≤ x) : 0 ≤ jsMod x 2 ∧ jsMod x 2 < 2 := by
  have h2 : (0:ℚ) ≤ x / 2 := by positivity
  have ht : ratTrunc (x / 2) = ⌊x / 2⌋ := if_pos h2
  have hfr : jsMod x 2 = 2 * Int.fract (x / 2) := by
    rw [jsMod, ht, Int.fract]
    ring
  constructor
  · rw [hfr]
    have := Int.fract_nonneg (x / 2)
    linarith
  · rw [hfr]
    have := Int.fract_lt_one (x / 2)
    linarith

/-- For a negative dividend, `x % 2` lies in `(-2, 0]`. -/
lemma jsMod_two_neg (x : ℚ) (hx : x < 0) : -2 < jsMod x 2 ∧ jsMod x 2 ≤ 0 := by
  have h2 : x / 2 < 0 := by
    have : (0:ℚ) < 2 := by norm_num
    exact div_neg_of_neg_of_pos hx this
  have ht : ratTrunc (x / 2) = ⌈x / 2⌉ := if_neg (not_le.2 h2)
  have hub : (⌈x / 2⌉ : ℚ) < x / 2 + 1 := Int.ceil_lt_add_one (x / 2)
  have hlb : x / 2 ≤ (⌈x / 2⌉ : ℚ) := Int.le_ceil (x / 2)
  constructor
  · rw [jsMod, ht]
    linarith
  · rw [jsMod, ht]
    linarith

/-- The double-`%` normalization `((x % 2π) + 2π) % 2π` of line 94 always
lands in `[0, 2π)`. -/
lemma jsNormalize_mem (x : ℚ) :
    0 ≤ jsMod (jsMod x 2 + 2) 2 ∧ jsMod (jsMod x 2 + 2) 2 < 2 := by
  rcases le_or_lt 0 x with hx | hx
  · have h1 := jsMod_two_nonneg x hx
    exact jsMod_two_nonneg (jsMod x 2 + 2) (by linarith [h1.1])
  · have h1 := jsMod_two_neg x hx
    exact jsMod_two_nonneg (jsMod x 2 + 2) (by linarith [h1.1])

/-- The normalization of line 94 preserves the angle modulo a full turn. -/
lemma jsNormalize_equiv (x : ℚ) : angEquiv (jsMod (jsMod x 2 + 2) 2) x := by
  refine ⟨1 - ratTrunc ((jsMod x 2 + 2) / 2) - ratTrunc (x / 2), ?_⟩
  have h1 := jsMod_two_sub x
  have h2 := jsMod_two_sub (jsMod x 2 + 2)
  push_cast
  linarith

/-- The final frame of the animation rotates the wheel to exactly
`totalRotation`, irrespective of the pre-spin rotation. -/
lemma spinFinalAngle_eq (r : ℚ) (p : ℤ) :
    spinFinalAngle r p = totalRotation p := by
  have hp : progress duration = 1 := by
    rw [progress, duration]
    norm_num
  rw [spinFinalAngle, currentAngleAt, hp]
  rw [easeProgress]
  ring

/-- The landing identity, for an arbitrary target index: the total rotation
plus the segment's center angle is the pointer angle, modulo a full turn. -/
lemma totalRotation_lands (i : ℤ) :
    angEquiv ((fullRotations : ℚ) * 2 + normalizedTargetAngle i
      + segmentCenterAngle i) pointerAngle := by
  obtain ⟨k, hk⟩ := jsNormalize_equiv (targetAngle i)
  refine ⟨k + 5, ?_⟩
  have : normalizedTargetAngle i - targetAngle i = 2 * (k : ℚ) := hk
  rw [targetAngle] at this
  rw [fullRotations]
  push_cast
  linarith

/-- C1: for every prize `p` in the client prize table `PRIZES`, the total
rotation computed by `animateSpin(p)` lands the center of `p`'s segment
under the fixed pointer at 12 o'clock: the final rotation `R` produced at
animation end satisfies `R + targetIndex·(2π/N) + (2π/N)/2 ≡ -π/2 (mod 2π)`
with `N = PRIZES.length`, and this final pointer-relative angle is
independent of the wheel's rotation before the spin started (angles as
multiples of π). -/
theorem C1_spin_lands_on_target_segment (p : ℤ) (hp : p ∈ PRIZES) (r r' : ℚ) :
    angEquiv (spinFinalAngle r p + (jsIndexOf PRIZES p : ℚ) * arc + arc / 2)
      pointerAngle
    ∧ spinFinalAngle r p = spinFinalAngle r' p := by
  constructor
  · rw [spinFinalAngle_eq, totalRotation]
    have h := totalRotation_lands (jsIndexOf PRIZES p)
    rw [segmentCenterAngle, segmentStartAngle] at h
    obtain ⟨k, hk⟩ := h
    exact ⟨k, by linarith⟩
  · rw [spinFinalAngle_eq, spinFinalAngle_eq]

/-- Witness for C1 at the first prize of the table, with two different
pre-spin rotations. -/
theorem C1_spin_lands_on_target_segment_witness :
    angEquiv (spinFinalAngle 0 5000 + (jsIndexOf PRIZES 5000 : ℚ) * arc + arc / 2)
      pointerAngle
    ∧ spinFinalAngle 0 5000 = spinFinalAngle 1 5000 :=
  C1_spin_lands_on_target_segment 5000 (by decide) 0 1

/-- Once a record for the user exists, every further `AwardSpin` call
returns its stored prize and leaves the store unchanged. -/
lemma runAwards_alreadySpun (uid : ℤ) (r : SpinRecord) (calls : List (ℤ × ℕ)) :
    ∀ store : List SpinRecord, findRecord store uid = some r →
      runAwards store uid calls
        = (store, List.replicate calls.length r.prize_amount) := by
  induction calls with
  | nil => intro store _; rfl
  | cons c cs ih =>
    intro store h
    obtain ⟨roll, now⟩ := c
    simp only [runAwards, awardSpin, h]
    rw [ih store h]
    rw [List.length_cons, List.replicate_succ]

/-- A store in which `findRecord` finds nothing holds no record for the
user. -/
lemma recordsFor_eq_nil (store : List SpinRecord) (uid : ℤ)
    (h : findRecord store uid = none) : recordsFor store uid = [] := by
  rw [findRecord, List.find?_eq_none] at h
  rw [recordsFor, List.filter_eq_nil_iff]
  exact h

/-- C2: `AwardSpin` is atomic per `user_id` under concurrent calls: for any
number of concurrent `AwardSpin` calls with the same `user_id` (linearized,
since each call is one atomic step, into an arbitrary order of rolls), when
no record exists beforehand, exactly one `SpinRecord` is created — the
first call's — and every call returns that same persisted prize; no second
record and no second, different prize is ever produced. -/
theorem C2_award_spin_atomic (store : List SpinRecord) (uid roll : ℤ) (now : ℕ)
    (calls : List (ℤ × ℕ)) (h : findRecord store uid = none) :
    recordsFor (runAwards store uid ((roll, now) :: calls)).1 uid
        = [⟨uid, roll, now⟩]
    ∧ (runAwards store uid ((roll, now) :: calls)).2
        = List.replicate (calls.length + 1) roll := by
  have hstep : awardSpin store uid roll now = (⟨uid, roll, now⟩ :: store, roll) := by
    rw [awardSpin, h]
  have hfind : findRecord ((⟨uid, roll, now⟩ : SpinRecord) :: store) uid
      = some ⟨uid, roll, now⟩ := by
    simp [findRecord]
  have hrest := runAwards_alreadySpun uid ⟨uid, roll, now⟩ calls
    ((⟨uid, roll, now⟩ : SpinRecord) :: store) hfind
  have hnil : recordsFor store uid = [] := recordsFor_eq_nil store uid h
  rw [recordsFor] at hnil
  have hrun : runAwards store uid ((roll, now) :: calls)
      = ((⟨uid, roll, now⟩ : SpinRecord) :: store,
         roll :: List.replicate calls.length roll) := by
    simp only [runAwards, hstep, hrest]
  constructor
  · rw [hrun]
    simp [recordsFor, List.filter_cons, hnil]
  · rw [hrun, List.replicate_succ]

/-- Witness for C2: an empty store, a first call rolling 15000 and one
concurrent racer rolling 20000; one record is created and both calls
return 15000. -/
theorem C2_award_spin_atomic_witness :
    recordsFor (runAwards [] 42 ((15000, 0) :: [(20000, 1)])).1 42
        = [⟨42, 15000, 0⟩]
    ∧ (runAwards [] 42 ((15000, 0) :: [(20000, 1)])).2
        = List.replicate ([(20000, 1)].length + 1) 15000 :=
  C2_award_spin_atomic [] 42 15000 0 [(20000, 1)] rfl

/-- The residual angle `animateSpin` computes for target index `-1`, the
index JS `indexOf` yields for a prize absent from `PRIZES`. -/
lemma normalizedTargetAngle_neg_one : normalizedTargetAngle (-1) = 5 / 3 := by
  have ht : targetAngle (-1) = -(1 / 3) := by
    norm_num [targetAngle, segmentCenterAngle, segmentStartAngle,
      pointerAngle, arc, PRIZES]
  have hc1 : ratTrunc (-(1 / 3) / 2) = 0 := by
    rw [ratTrunc, if_neg (by norm_num)]
    norm_num
  have h1 : jsMod (-(1 / 3)) 2 = -(1 / 3) := by
    rw [jsMod, hc1]
    norm_num
  have hc2 : ratTrunc ((-(1 / 3) + 2) / 2) = 0 := by
    rw [ratTrunc, if_pos (by norm_num)]
    norm_num
  have h2 : jsMod (-(1 / 3) + 2) 2 = 5 / 3 := by
    rw [jsMod, hc2]
    norm_num
  rw [normalizedTargetAngle, ht, h1, h2]

/-- Counterexample to C3: `animateSpin` contains no membership check and
cannot fail.  For the prize 7777, absent from `PRIZES`, `indexOf` returns
`-1`, the animation still computes the definite total rotation `35π/3` and
runs, and that rotation lands the center of segment 5 — a silently chosen
fallback segment — under the pointer, contradicting "fails with
UnknownPrize" and "does not run the animation to a silently chosen
fallback segment". -/
theorem C3_counterexample_silent_fallback :
    (7777 : ℤ) ∉ PRIZES
    ∧ jsIndexOf PRIZES 7777 = -1
    ∧ totalRotation 7777 = 35 / 3
    ∧ angEquiv (totalRotation 7777 + segmentCenterAngle 5) pointerAngle := by
  have hidx : jsIndexOf PRIZES 7777 = -1 := by decide
  have htot : totalRotation 7777 = 35 / 3 := by
    rw [totalRotation, hidx, normalizedTargetAngle_neg_one, fullRotations]
    norm_num
  refine ⟨by decide, hidx, htot, ⟨7, ?_⟩⟩
  rw [htot]
  norm_num [segmentCenterAngle, segmentStartAngle, pointerAngle, arc, PRIZES]

/-- C3 (amended): `animateSpin` performs no membership check and never
fails with `UnknownPrize`.  For every prize value absent from `PRIZES`,
`indexOf` returns `-1` and the animation runs to the definite total
rotation `35π/3`, landing on the center of the last segment (index 5) — a
silently chosen fallback; for every prize present in `PRIZES` the target
index is its actual position, `0 ≤ index < 6`. -/
theorem C3_no_membership_check (p : ℤ) (hp : p ∉ PRIZES) :
    jsIndexOf PRIZES p = -1
    ∧ totalRotation p = 35 / 3
    ∧ angEquiv (totalRotation p + segmentCenterAngle 5) pointerAngle
    ∧ ∀ q, q ∈ PRIZES → 0 ≤ jsIndexOf PRIZES q ∧ jsIndexOf PRIZES q < 6 := by
  have hidx : jsIndexOf PRIZES p = -1 := by rw [jsIndexOf, if_neg hp]
  have htot : totalRotation p = 35 / 3 := by
    rw [totalRotation, hidx, normalizedTargetAngle_neg_one, fullRotations]
    norm_num
  refine ⟨hidx, htot, ⟨7, ?_⟩, by decide⟩
  rw [htot]
  norm_num [segmentCenterAngle, segmentStartAngle, pointerAngle, arc, PRIZES]

/-- Witness for the amended C3 at the absent prize 7777 and the present
prize 5000. -/
theorem C3_no_membership_check_witness :
    jsIndexOf PRIZES 7777 = -1
    ∧ totalRotation 7777 = 35 / 3
    ∧ angEquiv (totalRotation 7777 + segmentCenterAngle 5) pointerAngle
    ∧ (0 ≤ jsIndexOf PRIZES 5000 ∧ jsIndexOf PRIZES 5000 < 6) :=
  have h := C3_no_membership_check 7777 (by decide)
  ⟨h.1, h.2.1, h.2.2.1, h.2.2.2 5000 (by decide)⟩

/-- C4: for every target prize (hence every target index `indexOf`
produces), the residual target angle of line 94 is normalized into
`[0, 2π)`, the total rotation target is exactly `fullRotations` full turns
plus that normalized residual, and the extra full rotations do not change
the final pointer-relative angle modulo `2π` (angles as multiples of π,
a full turn being `2`). -/
theorem C4_total_rotation_decomposition (p : ℤ) :
    0 ≤ normalizedTargetAngle (jsIndexOf PRIZES p)
    ∧ normalizedTargetAngle (jsIndexOf PRIZES p) < 2
    ∧ totalRotation p = 5 * 2 + normalizedTargetAngle (jsIndexOf PRIZES p)
    ∧ angEquiv (totalRotation p) (normalizedTargetAngle (jsIndexOf PRIZES p)) := by
  obtain ⟨h1, h2⟩ := jsNormalize_mem (targetAngle (jsIndexOf PRIZES p))
  refine ⟨h1, h2, ?_, ?_⟩
  · rw [totalRotation, fullRotations]
    norm_num
  · refine ⟨5, ?_⟩
    rw [totalRotation, fullRotations]
    push_cast
    ring

/-- The value of `totalRotation` is nonnegative: five full turns plus a residual in
`[0, 2π)`. -/
lemma totalRotation_nonneg (p : ℤ) : 0 ≤ totalRotation p := by
  have h := (jsNormalize_mem (targetAngle (jsIndexOf PRIZES p))).1
  rw [totalRotation, fullRotations]
  have : (0:ℚ) ≤ normalizedTargetAngle (jsIndexOf PRIZES p) := h
  push_cast
  linarith

/-- C5: animation progress is a function of wall-clock elapsed time only:
along one `animateSpin` run, the drawn rotation is monotone in elapsed
time (progress can jump forward, never backward, across a suspend/resume
gap), and every frame whose elapsed time has reached `duration` draws
exactly `totalRotation` (progress is clamped at 1). -/
theorem C5_wall_clock_progress (p : ℤ) :
    (∀ t1 t2 : ℚ, 0 ≤ t1 → t1 ≤ t2 →
        currentAngleAt p t1 ≤ currentAngleAt p t2)
    ∧ ∀ t : ℚ, duration ≤ t → currentAngleAt p t = totalRotation p := by
  have hdurpos : (0:ℚ) < duration := by rw [duration]; norm_num
  constructor
  · intro t1 t2 h0 h12
    rw [currentAngleAt, currentAngleAt]
    apply mul_le_mul_of_nonneg_right _ (totalRotation_nonneg p)
    have hp1 : 0 ≤ progress t1 :=
      le_min (div_nonneg h0 (le_of_lt hdurpos)) zero_le_one
    have hmono : progress t1 ≤ progress t2 :=
      min_le_min ((div_le_div_iff_of_pos_right hdurpos).2 h12) le_rfl
    have hub : progress t2 ≤ 1 := min_le_right _ _
    rw [easeProgress, easeProgress]
    have hcube : (1 - progress t2) ^ 3 ≤ (1 - progress t1) ^ 3 :=
      pow_le_pow_left₀ (by linarith) (by linarith) 3
    linarith
  · intro t ht
    have h1 : progress t = 1 := by
      rw [progress]
      have hone : (1:ℚ) ≤ t / duration := by
        rw [le_div_iff₀ hdurpos]
        linarith
      simp [min_eq_right hone]
    rw [currentAngleAt, h1, easeProgress]
    ring

/-- Witness for C5: two frames at 0 ms and 100 ms, and the clamped frame at
4000 ms. -/
theorem C5_wall_clock_progress_witness :
    currentAngleAt 5000 0 ≤ currentAngleAt 5000 100
    ∧ currentAngleAt 5000 4000 = totalRotation 5000 :=
  ⟨(C5_wall_clock_progress 5000).1 0 100 (by decide) (by decide),
   (C5_wall_clock_progress 5000).2 4000 (by decide)⟩

/-- A frame keeps the animation going iff its elapsed time is still short
of `duration`. -/
lemma progress_lt_one_iff (t : ℚ) : progress t < 1 ↔ t < duration := by
  rw [progress, min_lt_iff]
  constructor
  · rintro (hlt | hlt)
    · rw [duration]
      rw [duration] at hlt
      exact (div_lt_one (by norm_num)).1 hlt
    · exact absurd hlt (lt_irrefl 1)
  · intro hlt
    left
    rw [duration]
    rw [duration] at hlt
    exact (div_lt_one (by norm_num)).2 hlt

/-- The shape of the frame trace when some frame time reaches `duration`:
all earlier frames just continue, the first late frame fires the callback
and ends the trace. -/
lemma animateTrace_eq (ts : List ℚ) :
    (∃ t ∈ ts, duration ≤ t) →
      animateTrace ts
        = (ts.takeWhile (fun t => decide (t < duration))).map (fun _ => false)
            ++ [true] := by
  induction ts with
  | nil => intro h; simp at h
  | cons t ts ih =>
    intro h
    by_cases hlt : t < duration
    · obtain ⟨t', ht', hd⟩ := h
      have hmem : t' ∈ ts := by
        rcases List.mem_cons.1 ht' with rfl | hmem
        · exact absurd hlt (not_lt.2 hd)
        · exact hmem
      simp only [animateTrace, if_pos ((progress_lt_one_iff t).2 hlt)]
      rw [ih ⟨t', hmem, hd⟩]
      simp [List.takeWhile_cons, hlt]
    · have hnp : ¬ progress t < 1 := fun hh => hlt ((progress_lt_one_iff t).1 hh)
      simp only [animateTrace, if_neg hnp]
      simp [List.takeWhile_cons, hlt]

/-- C6: in every run of the spin animation whose host eventually delivers a
frame at or past `duration`, the completion callback is invoked exactly
once — synchronously on the unique first frame whose progress reaches 1 —
and no further animation frame is scheduled after it: the trace is
`false` for every frame strictly before `duration` and ends at the single
`true` frame. -/
theorem C6_completion_callback_once (ts : List ℚ)
    (h : ∃ t ∈ ts, duration ≤ t) :
    animateTrace ts
        = (ts.takeWhile (fun t => decide (t < duration))).map (fun _ => false)
            ++ [true]
    ∧ (animateTrace ts).count true = 1 := by
  have main := animateTrace_eq ts h
  refine ⟨main, ?_⟩
  rw [main, List.count_append]
  have hz : ((ts.takeWhile (fun t => decide (t < duration))).map
      (fun _ => false)).count true = 0 := by
    rw [List.count_eq_zero]
    simp
  rw [hz]
  rfl

/-- Witness for C6: frames at 0 ms and 4000 ms produce one continuing frame
and the single completing frame. -/
theorem C6_completion_callback_once_witness :
    animateTrace [0, 4000]
        = (([0, 4000] : List ℚ).takeWhile
            (fun t => decide (t < duration))).map (fun _ => false) ++ [true]
    ∧ (animateTrace [0, 4000]).count true = 1 :=
  C6_completion_callback_once [0, 4000] ⟨4000, by decide, by decide⟩

/-- C7: at most one award call is in flight per client instance: while
`isSpinning` is set, any further invocation of `spin()` returns
immediately — no POST, no second animation, no state change; a spin that
does go out sets `isSpinning` before the request, and only the
animation's final frame clears it. -/
theorem C7_spin_guard (s s' s'' : ClientState) (userId : Option ℤ)
    (resp : SpinResponse) (uid d p : ℤ)
    (hspin : s.isSpinning = true) (hidle : s'.isSpinning = false) :
    spin s userId resp = (s, [])
    ∧ ((spin s' (some uid) (.ok d)).1).isSpinning = true
    ∧ ((animateFinalFrame s'' p).1).isSpinning = false := by
  refine ⟨?_, ?_, ?_⟩
  · simp [spin, hspin]
  · simp [spin, hidle]
  · simp [animateFinalFrame, showResult]

/-- Witness for C7: a spinning state ignores a second `spin()`; an idle
state entering the success path is marked spinning; the final frame clears
the flag. -/
theorem C7_spin_guard_witness :
    spin { initState with isSpinning := true } none .thrown
        = ({ initState with isSpinning := true }, [])
    ∧ ((spin initState (some 42) (.ok 15000)).1).isSpinning = true
    ∧ ((animateFinalFrame initState 15000).1).isSpinning = false :=
  C7_spin_guard { initState with isSpinning := true } initState initState
    none .thrown 42 15000 15000 rfl rfl

/-- C8: on the success path, the payload the client forwards to the hosting
application equals exactly the prize the server returned from
`POST /api/spin` — the same value the animation landed on — and the client
then closes its own view: the full effect trace is the haptic, the POST,
the animation start with the server's prize, `sendData` of that same
prize, and `close`. -/
theorem C8_forwarded_payload (s : ClientState) (uid d : ℤ)
    (h : s.isSpinning = false) :
    (clientRunOk s uid d).2
        = [.hapticImpact, .postSpin uid, .startAnimation d,
           .sendData d, .closeApp, .hapticSuccess]
    ∧ (clientRunOk s uid d).1.resultText = some d := by
  have hstart : startedPrize
      [Effect.hapticImpact, Effect.postSpin uid, Effect.startAnimation d]
        = some d := rfl
  simp [clientRunOk, spin, h, hstart, animateFinalFrame, showResult]

/-- Witness for C8 from the freshly loaded client with server prize 25000. -/
theorem C8_forwarded_payload_witness :
    (clientRunOk initState 42 25000).2
        = [.hapticImpact, .postSpin 42, .startAnimation 25000,
           .sendData 25000, .closeApp, .hapticSuccess]
    ∧ (clientRunOk initState 42 25000).1.resultText = some 25000 :=
  C8_forwarded_payload initState 42 25000 rfl

/-- C9: on any failed `POST /api/spin` — a non-ok response or a thrown
fetch/parse error — the client starts no animation and restores its
pre-call state (`isSpinning` back to `false`, spin button re-enabled);
the one exception is the recognized "Already spun" response shape, where
the previously awarded prize is displayed and the spin button is hidden,
still without starting an animation. -/
theorem C9_error_paths (s : ClientState) (uid prize : ℤ) (err : String)
    (h : s.isSpinning = false) (hne : err ≠ "Already spun") :
    ((spin s (some uid) (.errResp err prize)).1.isSpinning = false
      ∧ (spin s (some uid) (.errResp err prize)).1.spinBtnDisabled = false
      ∧ ∀ q, Effect.startAnimation q ∉ (spin s (some uid) (.errResp err prize)).2)
    ∧ ((spin s (some uid) .thrown).1.isSpinning = false
      ∧ (spin s (some uid) .thrown).1.spinBtnDisabled = false
      ∧ ∀ q, Effect.startAnimation q ∉ (spin s (some uid) .thrown).2)
    ∧ ((spin s (some uid) (.errResp "Already spun" prize)).1.alreadySpunText
          = some prize
      ∧ (spin s (some uid) (.errResp "Already spun" prize)).1.alreadySpunHidden
          = false
      ∧ (spin s (some uid) (.errResp "Already spun" prize)).1.spinBtnHidden
          = true
      ∧ ∀ q, Effect.startAnimation q
          ∉ (spin s (some uid) (.errResp "Already spun" prize)).2) := by
  refine ⟨⟨?_, ?_, ?_⟩, ⟨?_, ?_, ?_⟩, ?_, ?_, ?_, ?_⟩ <;>
    simp [spin, h, hne]

/-- Witness for C9 with a generic server error, a thrown transport error,
and the "Already spun" shape carrying the stored prize 10000. -/
theorem C9_error_paths_witness :
    ((spin initState (some 42) (.errResp "Internal error" 0)).1.isSpinning = false
      ∧ (spin initState (some 42) (.errResp "Internal error" 0)).1.spinBtnDisabled
          = false
      ∧ ∀ q, Effect.startAnimation q
          ∉ (spin initState (some 42) (.errResp "Internal error" 0)).2)
    ∧ ((spin initState (some 42) .thrown).1.isSpinning = false
      ∧ (spin initState (some 42) .thrown).1.spinBtnDisabled = false
      ∧ ∀ q, Effect.startAnimation q ∉ (spin initState (some 42) .thrown).2)
    ∧ ((spin initState (some 42) (.errResp "Already spun" 10000)).1.alreadySpunText
          = some 10000
      ∧ (spin initState (some 42)
            (.errResp "Already spun" 10000)).1.alreadySpunHidden = false
      ∧ (spin initState (some 42)
            (.errResp "Already spun" 10000)).1.spinBtnHidden = true
      ∧ ∀ q, Effect.startAnimation q
          ∉ (spin initState (some 42) (.errResp "Already spun" 10000)).2) :=
  C9_error_paths initState 42 10000 "Internal error" rfl (by decide)

/-- C10: the colour palette has exactly the length of the prize table (6),
so every segment index `drawWheel` iterates over is in bounds for both
`COLORS[i]` and `PRIZES[i]`, and every drawn segment — filled from
`rotation + i*arc` to `rotation + i*arc + arc` — has the same angular
width `2π / PRIZES.length` (as a multiple of π, `2 / PRIZES.length`). -/
theorem C10_palette_matches_prizes (rotation : ℚ) :
    COLORS.length = PRIZES.length
    ∧ PRIZES.length = 6
    ∧ (∀ i : ℕ, i < PRIZES.length → i < COLORS.length)
    ∧ ∀ i : ℕ, (drawAngle rotation i + arc) - drawAngle rotation i
        = 2 / (PRIZES.length : ℚ) := by
  refine ⟨by decide, by decide, ?_, ?_⟩
  · intro i hi
    have hlen : PRIZES.length = COLORS.length := by decide
    omega
  · intro i
    rw [arc]
    ring

/-- Witness for C10 at rotation 0 and segment index 0. -/
theorem C10_palette_matches_prizes_witness :
    COLORS.length = PRIZES.length
    ∧ PRIZES.length = 6
    ∧ 0 < COLORS.length
    ∧ (drawAngle 0 0 + arc) - drawAngle 0 0 = 2 / (PRIZES.length : ℚ) :=
  ⟨(C10_palette_matches_prizes 0).1, (C10_palette_matches_prizes 0).2.1,
   (C10_palette_matches_prizes 0).2.2.1 0 (by decide),
   (C10_palette_matches_prizes 0).2.2.2 0⟩

end Roulette
